import Mathlib

/-!
Verification of the AudioMNIST download script.

This file gives a shallow embedding of the single source file
src/download_dataset.py and proves the specified properties of it.

The program is an orchestration of external collaborator calls
(environment lookup, directory creation, hub login, dataset fetch,
dataset save) wrapped in a CLI and one catch-all exception handler.
We model each collaborator by an oracle packaged in a World record:
each oracle either succeeds or raises an exception carrying a message
string.  Running the program against a World produces the ordered list
of observable events (directory creations, the login call, the fetch
call, the save call, every printed line) together with the outcome:
none for normal termination, some msg for an exception with message
msg escaping the function.

Printed lines are embedded verbatim: one Event.printLine per Python
print call, carrying exactly the argument string (the embedded newline
escapes included).  The only abstractions: Path values are kept as the
raw strings given by the caller (the absolute-path rendering inside
two echo lines is elided), and dataset contents are reduced to sample
counts, the only aspect the program observes.

A second, tiny filesystem model (directories as component lists) is
used for the directory-existence invariant, where the effect of
recursive directory creation matters rather than merely its position
in the trace.
-/

/-- Result of the fetch stage as the program observes it: either a single
collection (only its length is inspected) or a mapping from split name to
collection length.  Mirrors the isinstance dict test at line 73. -/
inductive DatasetHandle where
  | single (n : Nat)
  | mapping (splits : List (String × Nat))
deriving DecidableEq

/-- The argument record of the load_dataset call: dataset name, optional
split, optional cache directory, worker count (lines 57-69). -/
structure FetchReq where
  name : String
  split : Option String
  cache_dir : Option String
  num_proc : Int
deriving DecidableEq

/-- Observable events of one run, in program order. -/
inductive Event where
  | mkdir (path : String)
  | login (tok : String)
  | setTimeout (secs : Nat)
  | fetch (req : FetchReq)
  | save (path : String)
  | printLine (s : String)
deriving DecidableEq

/-- The external world the program runs against: the optional value of the
HUGGINGFACE_TOKEN environment variable, and one oracle per collaborator
call.  An Option String oracle result of some msg means the call raised an
exception with message msg; the fetch oracle either raises or returns a
DatasetHandle. -/
structure World where
  hfToken : Option String
  mkdirExc : String → Option String
  loginExc : String → Option String
  fetchRes : FetchReq → Except String DatasetHandle
  saveExc : String → Option String

/-- The RunConfig: the four parameters of download_AudioMNIST
(lines 15-18). -/
structure Config where
  output_dir : String
  split : String
  cache_dir : Option String
  num_proc : Int
deriving DecidableEq

/-- The raw CLI argument values, after argparse fills in defaults
(lines 106-130). -/
structure Args where
  output_dir : String
  split : String
  cache_dir : Option String
  num_proc : Int
deriving DecidableEq

/-- The string of sixty equal signs printed as a banner line. -/
def banner60 : String := String.mk (List.replicate 60 '=')

/-- Path.__truediv__: joining a directory path and one component. -/
def joinPath (dir sub : String) : String := dir ++ "/" ++ sub

/-- The fixed dataset identifier requested from the hub (lines 59, 65). -/
def datasetName : String := "gilkeyio/AudioMNIST"

/-- The save destination output_dir/AudioMNIST (line 81). -/
def savePath (cfg : Config) : String := joinPath cfg.output_dir "AudioMNIST"

/-- The load_dataset argument record built at lines 57-69: when split is
"all" no split argument is passed, otherwise exactly the named split is
passed; num_proc is the literal 1 in both branches. -/
def fetchRequest (cfg : Config) : FetchReq :=
  if cfg.split = "all" then
    { name := datasetName, split := none, cache_dir := cfg.cache_dir, num_proc := 1 }
  else
    { name := datasetName, split := some cfg.split, cache_dir := cfg.cache_dir, num_proc := 1 }

/-- Lines 47-49: read the token and, when it is truthy (set and non-empty),
call login with it.  Returns the events of this phase and the exception, if
the login call raised. -/
def loginPhase (w : World) : List Event × Option String :=
  match w.hfToken with
  | none => ([], none)
  | some t =>
    if t = "" then ([], none)
    else
      match w.loginExc t with
      | some msg => ([Event.login t], some msg)
      | none => ([Event.login t], none)

/-- Lines 51-54: the three notes printed before the fetch and the
process-wide 300 second downloader timeout assignment. -/
def preFetchEvents : List Event :=
  [Event.printLine "\nDownloading AudioMNIST dataset...",
   Event.printLine "Note: This is a large dataset and may take significant time.",
   Event.printLine "The dataset will be cached for future use.",
   Event.setTimeout 300]

/-- Lines 73-77: the per-split count lines (dict result) or the single
total-count line (single-collection result). -/
def reportEvents (ds : DatasetHandle) : List Event :=
  match ds with
  | DatasetHandle.mapping splits =>
      splits.map (fun p => Event.printLine ("  " ++ p.1 ++ ": " ++ toString p.2 ++ " samples"))
  | DatasetHandle.single n =>
      [Event.printLine ("  Total samples: " ++ toString n)]

/-- Lines 83-89: the completion banner, the save path echo and the reload
snippet. -/
def completionEvents (cfg : Config) : List Event :=
  [Event.printLine ("\n" ++ banner60),
   Event.printLine "Download complete!",
   Event.printLine banner60,
   Event.printLine ("\nDataset saved to: " ++ savePath cfg),
   Event.printLine "\nTo load the dataset in your code:",
   Event.printLine "  from datasets import load_from_disk",
   Event.printLine ("  dataset = load_from_disk(\x27" ++ savePath cfg ++ "\x27)")]

/-- Lines 93-98: the fixed four-step remediation guide (account creation,
token creation, setting the environment variable, CLI login). -/
def remediationGuide : List String :=
  ["\nIf authentication is required:",
   "1. Create a HuggingFace account at https://huggingface.co/",
   "2. Create a token at https://huggingface.co/settings/tokens",
   "3. Set the token as an environment variable:",
   "   export HUGGINGFACE_TOKEN=\x27your_token_here\x27",
   "4. Or login using: huggingface-cli login"]

/-- Lines 92-98: the error echo followed by the fixed four-step remediation
guide, exactly as printed by the except branch. -/
def errorReport (msg : String) : List String :=
  ("\nError downloading dataset: " ++ msg) :: remediationGuide

/-- The error-report print events. -/
def errorEvents (msg : String) : List Event :=
  (errorReport msg).map Event.printLine

/-- The events appended by the except branch: nothing on normal
termination, the error report on an exception. -/
def errTail : Option String → List Event
  | none => []
  | some msg => errorEvents msg

/-- The body of the try block (lines 44-89): login phase, pre-fetch notes
and timeout, the fetch call, the success report, the save call and the
completion banner.  Returns the events performed and the exception, if one
was raised inside the block. -/
def tryBody (w : World) (cfg : Config) : List Event × Option String :=
  match loginPhase w with
  | (ltr, some msg) => (ltr, some msg)
  | (ltr, none) =>
    let req := fetchRequest cfg
    match w.fetchRes req with
    | Except.error msg => (ltr ++ preFetchEvents ++ [Event.fetch req], some msg)
    | Except.ok ds =>
      let repTr := Event.printLine "\nDataset downloaded successfully!" ::
        reportEvents ds ++
        [Event.printLine ("\nSaving dataset to " ++ cfg.output_dir ++ "...")]
      match w.saveExc (savePath cfg) with
      | some msg =>
          (ltr ++ preFetchEvents ++ [Event.fetch req] ++ repTr ++ [Event.save (savePath cfg)],
           some msg)
      | none =>
          (ltr ++ preFetchEvents ++ [Event.fetch req] ++ repTr ++ [Event.save (savePath cfg)] ++
             completionEvents cfg,
           none)

/-- Lines 32-36: the header banner and the configuration echo.  The two
absolute-path renderings are elided: the raw strings stand for the paths. -/
def headerEvents (cfg : Config) : List Event :=
  [Event.printLine banner60,
   Event.printLine "AudioMNIST Dataset Download",
   Event.printLine banner60,
   Event.printLine ("Output directory: " ++ cfg.output_dir),
   Event.printLine ("Split: " ++ cfg.split)]

/-- Lines 39-42: when a truthy cache_dir was given, create it recursively
and echo it.  Returns the events and the exception of the mkdir call, if it
raised.  This happens outside the try block. -/
def cacheDirPhase (w : World) (cfg : Config) : List Event × Option String :=
  match cfg.cache_dir with
  | none => ([], none)
  | some c =>
    if c = "" then ([], none)
    else
      match w.mkdirExc c with
      | some msg => ([Event.mkdir c], some msg)
      | none => ([Event.mkdir c, Event.printLine ("Cache directory: " ++ c)], none)

/-- Lines 29-36: the output_dir creation followed by the header echo. -/
def prepEvents (cfg : Config) : List Event :=
  Event.mkdir cfg.output_dir :: headerEvents cfg

/-- The function download_AudioMNIST (lines 15-99): create output_dir,
print the header, create cache_dir if given, then run the try block; on an
exception inside the try block print the error report and re-raise.  The
two mkdir calls happen before the try block, so their exceptions escape
without any error report.  Returns the event trace and the escaping
exception, if any. -/
def download_AudioMNIST (w : World) (cfg : Config) : List Event × Option String :=
  match w.mkdirExc cfg.output_dir with
  | some msg => ([Event.mkdir cfg.output_dir], some msg)
  | none =>
    match cacheDirPhase w cfg with
    | (ctr, some msg) => (prepEvents cfg ++ ctr, some msg)
    | (ctr, none) =>
      match tryBody w cfg with
      | (btr, none) => (prepEvents cfg ++ ctr ++ btr, none)
      | (btr, some msg) => (prepEvents cfg ++ ctr ++ btr ++ errorEvents msg, some msg)

/-- The accepted values of the --split option (line 116). -/
def splitChoices : List String := ["train", "test", "all"]

/-- The argparse stage (lines 103-132): pure validation of the argument
record; the enumerated-choice constraint on --split is the only check. -/
def parseArgs (a : Args) : Except String Config :=
  if a.split ∈ splitChoices then
    Except.ok { output_dir := a.output_dir, split := a.split,
                cache_dir := a.cache_dir, num_proc := a.num_proc }
  else
    Except.error ("argument --split: invalid choice: " ++ a.split)

/-- Outcome of one CLI invocation: an argparse usage error (argparse exits
the process itself, before any other action), or a run of
download_AudioMNIST with its trace and escaping exception. -/
inductive MainResult where
  | usageError (msg : String)
  | ran (trace : List Event) (exc : Option String)
deriving DecidableEq

/-- The function main (lines 102-139): parse the arguments, then call
download_AudioMNIST with them. -/
def mainRun (w : World) (a : Args) : MainResult :=
  match parseArgs a with
  | Except.error msg => MainResult.usageError msg
  | Except.ok cfg =>
    match download_AudioMNIST w cfg with
    | (tr, e) => MainResult.ran tr e

/-- The events a CLI invocation performed: a usage error aborts before any
filesystem or network action. -/
def eventsOf : MainResult → List Event
  | MainResult.usageError _ => []
  | MainResult.ran tr _ => tr

/-- Process exit status: argparse exits with 2 on a usage error; an
uncaught exception terminates the interpreter with 1; otherwise 0. -/
def exitCode : MainResult → Nat
  | MainResult.usageError _ => 2
  | MainResult.ran _ none => 0
  | MainResult.ran _ (some _) => 1

/-- The login calls recorded in a trace, in order, with their tokens. -/
def loginCalls (tr : List Event) : List String :=
  tr.filterMap (fun e => match e with | Event.login t => some t | _ => none)

/-- The fetch calls recorded in a trace, in order. -/
def fetchCalls (tr : List Event) : List FetchReq :=
  tr.filterMap (fun e => match e with | Event.fetch r => some r | _ => none)

/-- The save calls recorded in a trace, in order, with their paths. -/
def saveCalls (tr : List Event) : List String :=
  tr.filterMap (fun e => match e with | Event.save p => some p | _ => none)

/-- Event a occurs strictly before every occurrence of event b in the
trace. -/
def precedesIn (a b : Event) (tr : List Event) : Prop :=
  ∀ p s, tr = p ++ b :: s → a ∈ p

/-- The run reaches the try block: both mkdir calls (the second one only
when a truthy cache_dir was given) succeed. -/
def reachesTry (w : World) (cfg : Config) : Prop :=
  w.mkdirExc cfg.output_dir = none ∧
  ∀ c, cfg.cache_dir = some c → c ≠ "" → w.mkdirExc c = none

/-- Modelled from the spec: the contract of the hub fetch collaborator,
which is external-library code, not part of this repository.  A request
with no split argument yields a mapping of split name to collection; a
request naming a split yields a single collection. -/
def FetchContract (w : World) : Prop :=
  ∀ req ds, w.fetchRes req = Except.ok ds →
    (req.split = none → ∃ m, ds = DatasetHandle.mapping m) ∧
    (∀ s, req.split = some s → ∃ n, ds = DatasetHandle.single n)

/-- A directory path, as its list of components. -/
abbrev DirPath := List String

/-- A filesystem state: the list of directories that exist. -/
abbrev FS := List DirPath

/-- Path.mkdir with parents and exist_ok set: create the directory and
every missing ancestor; a directory already present stays present and the
call still succeeds (the function is total). -/
def mkdirP (fs : FS) (p : DirPath) : FS :=
  fs ++ (List.range p.length).map (fun i => p.take (i + 1))

/-- Modelled from the spec: the collaborator's save routine (save_to_disk),
external-library code not in this repository, writes the dataset under the
given directory, creating it; only the directory-existence effect is
modelled. -/
def saveFS (fs : FS) (p : DirPath) : FS := mkdirP fs p

/-- The filesystem state just before the fetch call of a run that reaches
it: output_dir created, then cache_dir when given. -/
def fsBeforeFetch (fs : FS) (output_dir : DirPath) (cache_dir : Option DirPath) : FS :=
  match cache_dir with
  | some c => mkdirP (mkdirP fs output_dir) c
  | none => mkdirP fs output_dir

/-- The directory-existence effect of one successful run: the two creation
steps, then the save under output_dir/AudioMNIST. -/
def runFS (fs : FS) (output_dir : DirPath) (cache_dir : Option DirPath) : FS :=
  saveFS (fsBeforeFetch fs output_dir cache_dir) (output_dir ++ ["AudioMNIST"])

/-- The default argument values of download_AudioMNIST (lines 15-18):
split defaults to "train". -/
def downloadDefaults : Config :=
  { output_dir := "./data", split := "train", cache_dir := none, num_proc := 4 }

/-- The default CLI argument values (lines 106-130): --split defaults to
"all". -/
def cliDefaults : Args :=
  { output_dir := "./data", split := "all", cache_dir := none, num_proc := 4 }

/-! ## Helper lemmas about traces -/

theorem loginCalls_append (l₁ l₂ : List Event) :
    loginCalls (l₁ ++ l₂) = loginCalls l₁ ++ loginCalls l₂ := by
  simp [loginCalls]

theorem fetchCalls_append (l₁ l₂ : List Event) :
    fetchCalls (l₁ ++ l₂) = fetchCalls l₁ ++ fetchCalls l₂ := by
  simp [fetchCalls]

theorem saveCalls_append (l₁ l₂ : List Event) :
    saveCalls (l₁ ++ l₂) = saveCalls l₁ ++ saveCalls l₂ := by
  simp [saveCalls]

theorem fetch_not_mem_of_calls_nil (tr : List Event) (h : fetchCalls tr = [])
    (r : FetchReq) : Event.fetch r ∉ tr := by
  intro hm
  have hr : r ∈ fetchCalls tr := List.mem_filterMap.mpr ⟨Event.fetch r, hm, rfl⟩
  rw [h] at hr
  exact absurd hr (List.not_mem_nil r)

theorem precedesIn_of_not_mem (a b : Event) (tr : List Event) (hb : b ∉ tr) :
    precedesIn a b tr := by
  intro p s hp
  exact absurd (by rw [hp]; exact List.mem_append_right p (List.mem_cons_self b s)) hb

theorem precedesIn_append_left (a b : Event) (l₁ l₂ : List Event)
    (ha : a ∈ l₁) (hb : b ∉ l₁) : precedesIn a b (l₁ ++ l₂) := by
  intro p s hp
  rcases List.append_eq_append_iff.mp hp with ⟨t, ht1, _⟩ | ⟨t, ht1, ht2⟩
  · rw [ht1]
    exact List.mem_append_left t ha
  · cases t with
    | nil =>
      rw [List.append_nil] at ht1
      rw [← ht1]
      exact ha
    | cons x xs =>
      exfalso
      apply hb
      have hx : b = x := by
        have := ht2
        rw [List.cons_append] at this
        exact (List.cons.injEq _ _ _ _).mp this |>.1
      rw [ht1, hx]
      exact List.mem_append_right p (List.mem_cons_self x xs)

/-! ## Per-block computations -/

theorem loginCalls_prepEvents (cfg : Config) : loginCalls (prepEvents cfg) = [] := rfl

theorem fetchCalls_prepEvents (cfg : Config) : fetchCalls (prepEvents cfg) = [] := rfl

theorem saveCalls_prepEvents (cfg : Config) : saveCalls (prepEvents cfg) = [] := rfl

theorem loginCalls_preFetchEvents : loginCalls preFetchEvents = [] := rfl

theorem fetchCalls_preFetchEvents : fetchCalls preFetchEvents = [] := rfl

theorem saveCalls_preFetchEvents : saveCalls preFetchEvents = [] := rfl

theorem loginCalls_completionEvents (cfg : Config) :
    loginCalls (completionEvents cfg) = [] := rfl

theorem fetchCalls_completionEvents (cfg : Config) :
    fetchCalls (completionEvents cfg) = [] := rfl

theorem saveCalls_completionEvents (cfg : Config) :
    saveCalls (completionEvents cfg) = [] := rfl

theorem loginCalls_errorEvents (msg : String) : loginCalls (errorEvents msg) = [] := rfl

theorem fetchCalls_errorEvents (msg : String) : fetchCalls (errorEvents msg) = [] := rfl

theorem saveCalls_errorEvents (msg : String) : saveCalls (errorEvents msg) = [] := rfl

theorem loginCalls_errTail (o : Option String) : loginCalls (errTail o) = [] := by
  cases o <;> rfl

theorem fetchCalls_errTail (o : Option String) : fetchCalls (errTail o) = [] := by
  cases o <;> rfl

theorem saveCalls_errTail (o : Option String) : saveCalls (errTail o) = [] := by
  cases o <;> rfl

theorem loginCalls_reportEvents (ds : DatasetHandle) : loginCalls (reportEvents ds) = [] := by
  cases ds <;> simp [reportEvents, loginCalls, List.filterMap_map, Function.comp]

theorem fetchCalls_reportEvents (ds : DatasetHandle) : fetchCalls (reportEvents ds) = [] := by
  cases ds <;> simp [reportEvents, fetchCalls, List.filterMap_map, Function.comp]

theorem saveCalls_reportEvents (ds : DatasetHandle) : saveCalls (reportEvents ds) = [] := by
  cases ds <;> simp [reportEvents, saveCalls, List.filterMap_map, Function.comp]

theorem loginCalls_cacheDirPhase (w : World) (cfg : Config) :
    loginCalls (cacheDirPhase w cfg).1 = [] := by
  rcases hcd : cfg.cache_dir with _ | c
  · simp [cacheDirPhase, hcd, loginCalls]
  · by_cases hc : c = ""
    · simp [cacheDirPhase, hcd, hc, loginCalls]
    · rcases hm : w.mkdirExc c with _ | msg <;>
        simp [cacheDirPhase, hcd, hc, hm, loginCalls]

theorem fetchCalls_cacheDirPhase (w : World) (cfg : Config) :
    fetchCalls (cacheDirPhase w cfg).1 = [] := by
  rcases hcd : cfg.cache_dir with _ | c
  · simp [cacheDirPhase, hcd, fetchCalls]
  · by_cases hc : c = ""
    · simp [cacheDirPhase, hcd, hc, fetchCalls]
    · rcases hm : w.mkdirExc c with _ | msg <;>
        simp [cacheDirPhase, hcd, hc, hm, fetchCalls]

theorem saveCalls_cacheDirPhase (w : World) (cfg : Config) :
    saveCalls (cacheDirPhase w cfg).1 = [] := by
  rcases hcd : cfg.cache_dir with _ | c
  · simp [cacheDirPhase, hcd, saveCalls]
  · by_cases hc : c = ""
    · simp [cacheDirPhase, hcd, hc, saveCalls]
    · rcases hm : w.mkdirExc c with _ | msg <;>
        simp [cacheDirPhase, hcd, hc, hm, saveCalls]

theorem fetchCalls_loginPhase (w : World) : fetchCalls (loginPhase w).1 = [] := by
  rcases hf : w.hfToken with _ | t
  · simp [loginPhase, hf, fetchCalls]
  · by_cases ht : t = ""
    · simp [loginPhase, hf, ht, fetchCalls]
    · rcases hl : w.loginExc t with _ | msg <;>
        simp [loginPhase, hf, ht, hl, fetchCalls]

theorem saveCalls_loginPhase (w : World) : saveCalls (loginPhase w).1 = [] := by
  rcases hf : w.hfToken with _ | t
  · simp [loginPhase, hf, saveCalls]
  · by_cases ht : t = ""
    · simp [loginPhase, hf, ht, saveCalls]
    · rcases hl : w.loginExc t with _ | msg <;>
        simp [loginPhase, hf, ht, hl, saveCalls]

theorem loginPhase_fst_of_none (w : World) (hf : w.hfToken = none) :
    (loginPhase w).1 = [] := by
  simp [loginPhase, hf]

theorem loginPhase_fst_of_some (w : World) (t : String) (hf : w.hfToken = some t)
    (ht : t ≠ "") : (loginPhase w).1 = [Event.login t] := by
  rcases hl : w.loginExc t with _ | msg <;> simp [loginPhase, hf, ht, hl]

theorem loginCalls_cons_printLine (s : String) (tr : List Event) :
    loginCalls (Event.printLine s :: tr) = loginCalls tr := rfl

theorem loginCalls_nil : loginCalls [] = [] := rfl

theorem loginCalls_fetch_one (r : FetchReq) : loginCalls [Event.fetch r] = [] := rfl

theorem loginCalls_save_one (p : String) : loginCalls [Event.save p] = [] := rfl

/-! ## Run decomposition -/

theorem cacheDirPhase_snd_of_ok (w : World) (cfg : Config)
    (h : ∀ c, cfg.cache_dir = some c → c ≠ "" → w.mkdirExc c = none) :
    (cacheDirPhase w cfg).2 = none := by
  rcases hcd : cfg.cache_dir with _ | c
  · simp [cacheDirPhase, hcd]
  · by_cases hc : c = ""
    · simp [cacheDirPhase, hcd, hc]
    · simp [cacheDirPhase, hcd, hc, h c hcd hc]

theorem cacheDirPhase_fst_of_some (w : World) (cfg : Config) (c : String)
    (hcd : cfg.cache_dir = some c) (hc : c ≠ "") (hm : w.mkdirExc c = none) :
    (cacheDirPhase w cfg).1 =
      [Event.mkdir c, Event.printLine ("Cache directory: " ++ c)] := by
  simp [cacheDirPhase, hcd, hc, hm]

theorem download_eq_of_reaches (w : World) (cfg : Config) (h : reachesTry w cfg) :
    download_AudioMNIST w cfg =
      (prepEvents cfg ++ (cacheDirPhase w cfg).1 ++ (tryBody w cfg).1 ++
         errTail (tryBody w cfg).2,
       (tryBody w cfg).2) := by
  obtain ⟨h1, h2⟩ := h
  have hc := cacheDirPhase_snd_of_ok w cfg h2
  rcases hcp : cacheDirPhase w cfg with ⟨ctr, cexc⟩
  have hce : cexc = none := by rw [hcp] at hc; exact hc
  subst hce
  rcases htb : tryBody w cfg with ⟨btr, bexc⟩
  cases bexc <;> simp [download_AudioMNIST, h1, hcp, htb, errTail]

theorem tryBody_fst_decomp (w : World) (cfg : Config) :
    ∃ rest, (tryBody w cfg).1 = (loginPhase w).1 ++ rest ∧
      loginCalls rest = [] := by
  rcases hlp : loginPhase w with ⟨ltr, lexc⟩
  cases lexc with
  | some msg =>
    refine ⟨[], ?_, rfl⟩
    simp [tryBody, hlp]
  | none =>
    rcases hf : w.fetchRes (fetchRequest cfg) with msg | ds
    · refine ⟨preFetchEvents ++ [Event.fetch (fetchRequest cfg)], ?_, rfl⟩
      simp [tryBody, hlp, hf]
    · rcases hs : w.saveExc (savePath cfg) with _ | msg
      · refine ⟨preFetchEvents ++ [Event.fetch (fetchRequest cfg)] ++
          (Event.printLine "\nDataset downloaded successfully!" :: reportEvents ds ++
            [Event.printLine ("\nSaving dataset to " ++ cfg.output_dir ++ "...")]) ++
          [Event.save (savePath cfg)] ++ completionEvents cfg, ?_, ?_⟩
        · simp [tryBody, hlp, hf, hs]
        · simp only [loginCalls_append, loginCalls_cons_printLine, loginCalls_fetch_one,
            loginCalls_save_one, loginCalls_preFetchEvents, loginCalls_reportEvents,
            loginCalls_completionEvents, loginCalls_nil, List.append_nil, List.nil_append]
      · refine ⟨preFetchEvents ++ [Event.fetch (fetchRequest cfg)] ++
          (Event.printLine "\nDataset downloaded successfully!" :: reportEvents ds ++
            [Event.printLine ("\nSaving dataset to " ++ cfg.output_dir ++ "...")]) ++
          [Event.save (savePath cfg)], ?_, ?_⟩
        · simp [tryBody, hlp, hf, hs]
        · simp only [loginCalls_append, loginCalls_cons_printLine, loginCalls_fetch_one,
            loginCalls_save_one, loginCalls_preFetchEvents, loginCalls_reportEvents,
            loginCalls_nil, List.append_nil, List.nil_append]

theorem tryBody_success_decomp (w : World) (cfg : Config)
    (h : (tryBody w cfg).2 = none) :
    ∃ ds, w.fetchRes (fetchRequest cfg) = Except.ok ds ∧
      w.saveExc (savePath cfg) = none ∧
      (tryBody w cfg).1 =
        (loginPhase w).1 ++ preFetchEvents ++ [Event.fetch (fetchRequest cfg)] ++
        (Event.printLine "\nDataset downloaded successfully!" :: reportEvents ds ++
          [Event.printLine ("\nSaving dataset to " ++ cfg.output_dir ++ "...")]) ++
        [Event.save (savePath cfg)] ++ completionEvents cfg := by
  rcases hlp : loginPhase w with ⟨ltr, lexc⟩
  cases lexc with
  | some msg => simp [tryBody, hlp] at h
  | none =>
    rcases hf : w.fetchRes (fetchRequest cfg) with msg | ds
    · simp [tryBody, hlp, hf] at h
    · rcases hs : w.saveExc (savePath cfg) with _ | msg
      · refine ⟨ds, rfl, rfl, ?_⟩
        simp [tryBody, hlp, hf, hs]
      · simp [tryBody, hlp, hf, hs] at h

theorem tryBody_fetch_ok_decomp (w : World) (cfg : Config) (ds : DatasetHandle)
    (hl : (loginPhase w).2 = none)
    (hf : w.fetchRes (fetchRequest cfg) = Except.ok ds) :
    ∃ q, (tryBody w cfg).1 =
      (loginPhase w).1 ++ preFetchEvents ++ [Event.fetch (fetchRequest cfg)] ++
      (Event.printLine "\nDataset downloaded successfully!" :: reportEvents ds ++
        [Event.printLine ("\nSaving dataset to " ++ cfg.output_dir ++ "...")]) ++ q := by
  rcases hlp : loginPhase w with ⟨ltr, lexc⟩
  rw [hlp] at hl
  have hle : lexc = none := hl
  subst hle
  rcases hs : w.saveExc (savePath cfg) with _ | msg
  · exact ⟨[Event.save (savePath cfg)] ++ completionEvents cfg, by
      simp [tryBody, hlp, hf, hs]⟩
  · exact ⟨[Event.save (savePath cfg)], by simp [tryBody, hlp, hf, hs]⟩

/-! ## Directory-model lemmas -/

theorem mem_mkdirP (fs : FS) (p q : DirPath) :
    q ∈ mkdirP fs p ↔ q ∈ fs ∨ ∃ i, i < p.length ∧ p.take (i + 1) = q := by
  simp [mkdirP]

theorem mem_mkdirP_of_mem (fs : FS) (p q : DirPath) (h : q ∈ fs) :
    q ∈ mkdirP fs p :=
  (mem_mkdirP fs p q).mpr (Or.inl h)

theorem self_mem_mkdirP (fs : FS) (p : DirPath) (hp : p ≠ []) :
    p ∈ mkdirP fs p := by
  rw [mem_mkdirP]
  right
  have hlen : 0 < p.length := List.length_pos.mpr hp
  refine ⟨p.length - 1, by omega, ?_⟩
  have h1 : p.length - 1 + 1 = p.length := by omega
  rw [h1, List.take_length]

theorem mkdirP_idem_mem (fs : FS) (p q : DirPath) :
    q ∈ mkdirP (mkdirP fs p) p ↔ q ∈ mkdirP fs p := by
  simp only [mem_mkdirP]
  tauto

theorem output_mem_fsBeforeFetch (fs : FS) (out : DirPath) (cache : Option DirPath)
    (h : out ≠ []) : out ∈ fsBeforeFetch fs out cache := by
  cases cache with
  | none => exact self_mem_mkdirP fs out h
  | some c => exact mem_mkdirP_of_mem _ c out (self_mem_mkdirP fs out h)

theorem cache_mem_fsBeforeFetch (fs : FS) (out c : DirPath) (hc : c ≠ []) :
    c ∈ fsBeforeFetch fs out (some c) :=
  self_mem_mkdirP (mkdirP fs out) c hc

theorem output_mem_runFS (fs : FS) (out : DirPath) (cache : Option DirPath)
    (h : out ≠ []) : out ∈ runFS fs out cache :=
  mem_mkdirP_of_mem _ _ out (output_mem_fsBeforeFetch fs out cache h)

theorem dataset_dir_mem_runFS (fs : FS) (out : DirPath) (cache : Option DirPath) :
    out ++ ["AudioMNIST"] ∈ runFS fs out cache :=
  self_mem_mkdirP _ _ (by simp)

/-! ## A total-count line is not a per-split line of the stub report -/

theorem total_line_not_mem_stub (n : Nat) :
    Event.printLine ("  Total samples: " ++ toString n) ∉
      reportEvents (DatasetHandle.mapping [("train", 10), ("test", 20)]) := by
  intro h
  simp only [reportEvents, List.map_cons, List.map_nil, List.mem_cons,
    List.not_mem_nil, or_false, Event.printLine.injEq] at h
  rcases h with h | h <;>
  · have h2 := congrArg String.data h
    simp [String.data_append] at h2

/-! ## More per-constructor computations and precedence lemmas -/

theorem loginCalls_login_one (t : String) : loginCalls [Event.login t] = [t] := rfl

theorem fetchCalls_nil : fetchCalls [] = [] := rfl

theorem fetchCalls_cons_printLine (s : String) (tr : List Event) :
    fetchCalls (Event.printLine s :: tr) = fetchCalls tr := rfl

theorem fetchCalls_fetch_one (r : FetchReq) : fetchCalls [Event.fetch r] = [r] := rfl

theorem fetchCalls_save_one (p : String) : fetchCalls [Event.save p] = [] := rfl

theorem fetchCalls_headerEvents (cfg : Config) : fetchCalls (headerEvents cfg) = [] := rfl

theorem saveCalls_nil : saveCalls [] = [] := rfl

theorem saveCalls_cons_printLine (s : String) (tr : List Event) :
    saveCalls (Event.printLine s :: tr) = saveCalls tr := rfl

theorem saveCalls_fetch_one (r : FetchReq) : saveCalls [Event.fetch r] = [] := rfl

theorem saveCalls_save_one (p : String) : saveCalls [Event.save p] = [p] := rfl

theorem precedesIn_cons (a b x : Event) (l : List Event) (hbx : b ≠ x)
    (h : precedesIn a b l) : precedesIn a b (x :: l) := by
  intro p s hp
  cases p with
  | nil =>
    rw [List.nil_append] at hp
    exact absurd ((List.cons.injEq _ _ _ _).mp hp).1 (fun he => hbx he.symm)
  | cons y ys =>
    rw [List.cons_append] at hp
    obtain ⟨hxy, hl⟩ := (List.cons.injEq _ _ _ _).mp hp
    exact List.mem_cons_of_mem y (h ys s hl)

theorem precedesIn_cons_self (a b : Event) (l : List Event) (hab : b ≠ a) :
    precedesIn a b (a :: l) := by
  intro p s hp
  cases p with
  | nil =>
    rw [List.nil_append] at hp
    exact absurd ((List.cons.injEq _ _ _ _).mp hp).1 (fun he => hab he.symm)
  | cons y ys =>
    rw [List.cons_append] at hp
    obtain ⟨hxy, _⟩ := (List.cons.injEq _ _ _ _).mp hp
    rw [hxy]
    exact List.mem_cons_self y ys

theorem precedesIn_append_right (a b : Event) (l₁ l₂ : List Event)
    (hb : b ∉ l₁) (h : precedesIn a b l₂) : precedesIn a b (l₁ ++ l₂) := by
  intro p s hp
  rcases List.append_eq_append_iff.mp hp with ⟨t, ht1, ht2⟩ | ⟨t, ht1, ht2⟩
  · rw [ht1]
    exact List.mem_append_right l₁ (h t s ht2)
  · cases t with
    | nil =>
      rw [List.append_nil] at ht1
      rw [List.nil_append] at ht2
      subst ht1
      exfalso
      have ha : a ∈ ([] : List Event) := h [] s (by rw [List.nil_append]; exact ht2.symm)
      exact absurd ha (List.not_mem_nil a)
    | cons x xs =>
      exfalso
      apply hb
      have hx : b = x := by
        rw [List.cons_append] at ht2
        exact ((List.cons.injEq _ _ _ _).mp ht2).1
      rw [ht1, hx]
      exact List.mem_append_right p (List.mem_cons_self x xs)

/-! ## Which fetch calls a run can make -/

theorem fetchCalls_tryBody (w : World) (cfg : Config) :
    fetchCalls (tryBody w cfg).1 = [] ∨
    fetchCalls (tryBody w cfg).1 = [fetchRequest cfg] := by
  rcases hlp : loginPhase w with ⟨ltr, lexc⟩
  have hl : fetchCalls ltr = [] := by
    have h0 := fetchCalls_loginPhase w
    rw [hlp] at h0
    exact h0
  cases lexc with
  | some msg =>
    left
    simp only [tryBody, hlp]
    exact hl
  | none =>
    rcases hf : w.fetchRes (fetchRequest cfg) with msg | ds
    · right
      simp only [tryBody, hlp, hf, fetchCalls_append, hl, fetchCalls_preFetchEvents,
        fetchCalls_fetch_one, List.nil_append, List.append_nil]
    · rcases hs : w.saveExc (savePath cfg) with _ | msg <;>
      · right
        simp only [tryBody, hlp, hf, hs, fetchCalls_append, hl, fetchCalls_preFetchEvents,
          fetchCalls_fetch_one, fetchCalls_cons_printLine, fetchCalls_reportEvents,
          fetchCalls_completionEvents, fetchCalls_save_one, fetchCalls_nil,
          List.nil_append, List.append_nil]

theorem fetchCalls_download_sub (w : World) (cfg : Config) (r : FetchReq)
    (h : r ∈ fetchCalls (download_AudioMNIST w cfg).1) : r = fetchRequest cfg := by
  rcases hm : w.mkdirExc cfg.output_dir with _ | msg
  · rcases hcp : cacheDirPhase w cfg with ⟨ctr, cexc⟩
    have hctr : fetchCalls ctr = [] := by
      have h0 := fetchCalls_cacheDirPhase w cfg
      rw [hcp] at h0
      exact h0
    cases cexc with
    | some msg =>
      rw [show (download_AudioMNIST w cfg).1 = prepEvents cfg ++ ctr from by
        simp [download_AudioMNIST, hm, hcp]] at h
      rw [fetchCalls_append, fetchCalls_prepEvents, hctr] at h
      exact absurd h (List.not_mem_nil r)
    | none =>
      rcases htb : tryBody w cfg with ⟨btr, bexc⟩
      have hb := fetchCalls_tryBody w cfg
      rw [htb] at hb
      have hdl : (download_AudioMNIST w cfg).1 =
          prepEvents cfg ++ ctr ++ btr ++ errTail bexc := by
        cases bexc <;> simp [download_AudioMNIST, hm, hcp, htb, errTail]
      rw [hdl, fetchCalls_append, fetchCalls_append, fetchCalls_append,
        fetchCalls_prepEvents, hctr, fetchCalls_errTail] at h
      simp only [List.nil_append, List.append_nil] at h
      rcases hb with hb | hb
      · rw [hb] at h
        exact absurd h (List.not_mem_nil r)
      · rw [hb] at h
        rcases List.mem_singleton.mp h with h2
        exact h2
  · rw [show (download_AudioMNIST w cfg).1 = [Event.mkdir cfg.output_dir] from by
      simp [download_AudioMNIST, hm]] at h
    exact absurd h (by simp [fetchCalls])

/-! ## The claims -/

/-- C1: the fetch stage dispatches on the split selector: when split is
"all" the dataset gilkeyio/AudioMNIST is requested with no split argument
and (by the collaborator contract) an ok result is a mapping from split
name to collection; for any other accepted value exactly that named split
is requested and an ok result is a single collection; moreover every fetch
call a run performs is exactly this dispatched request. -/
theorem C1_fetch_dispatch (w : World) (cfg : Config) (hw : FetchContract w) :
    (fetchRequest cfg).name = datasetName ∧
    (cfg.split = "all" →
      (fetchRequest cfg).split = none ∧
      ∀ ds, w.fetchRes (fetchRequest cfg) = Except.ok ds →
        ∃ m, ds = DatasetHandle.mapping m) ∧
    (cfg.split ≠ "all" →
      (fetchRequest cfg).split = some cfg.split ∧
      ∀ ds, w.fetchRes (fetchRequest cfg) = Except.ok ds →
        ∃ n, ds = DatasetHandle.single n) ∧
    (∀ r, r ∈ fetchCalls (download_AudioMNIST w cfg).1 → r = fetchRequest cfg) := by
  refine ⟨?_, ?_, ?_, fun r hr => fetchCalls_download_sub w cfg r hr⟩
  · by_cases h : cfg.split = "all" <;> simp [fetchRequest, h]
  · intro h
    have hsp : (fetchRequest cfg).split = none := by simp [fetchRequest, h]
    exact ⟨hsp, fun ds hds => (hw (fetchRequest cfg) ds hds).1 hsp⟩
  · intro h
    have hsp : (fetchRequest cfg).split = some cfg.split := by simp [fetchRequest, h]
    exact ⟨hsp, fun ds hds => (hw (fetchRequest cfg) ds hds).2 cfg.split hsp⟩

/-- C1 witness: the dispatch theorem applied at a contract-satisfying
world, the CLI default split "all" and the function default split
"train". -/
theorem C1_fetch_dispatch_witness :
    (fetchRequest (Config.mk "./data" "all" none 4)).split = none ∧
    (fetchRequest downloadDefaults).split = some "train" := by
  have hw : FetchContract (World.mk none (fun _ => none) (fun _ => none)
      (fun req => (Except.ok (match req.split with
        | none => DatasetHandle.mapping []
        | some _ => DatasetHandle.single 0) : Except String DatasetHandle))
      (fun _ => none)) := by
    intro req ds hds
    have hds2 : ds = (match req.split with
        | none => DatasetHandle.mapping []
        | some _ => DatasetHandle.single 0) :=
      (Except.ok.inj hds).symm
    constructor
    · intro hsp
      rw [hsp] at hds2
      exact ⟨[], hds2⟩
    · intro s hsp
      rw [hsp] at hds2
      exact ⟨0, hds2⟩
  exact ⟨((C1_fetch_dispatch _ (Config.mk "./data" "all" none 4) hw).2.1 rfl).1,
         ((C1_fetch_dispatch _ downloadDefaults hw).2.2.1 (by decide)).1⟩

/-- C4: the CLI accepts exactly the --split values train, test and all;
any other value produces a usage error, a non-zero exit status, and no
filesystem or network event at all. -/
theorem C4_split_choice_validation (w : World) (a : Args) :
    (a.split ∈ splitChoices →
      parseArgs a = Except.ok (Config.mk a.output_dir a.split a.cache_dir a.num_proc)) ∧
    (a.split ∉ splitChoices →
      mainRun w a =
        MainResult.usageError ("argument --split: invalid choice: " ++ a.split) ∧
      eventsOf (mainRun w a) = [] ∧
      exitCode (mainRun w a) ≠ 0) := by
  by_cases h : a.split ∈ splitChoices
  · refine ⟨fun _ => ?_, fun hn => absurd h hn⟩
    simp [parseArgs, h]
  · refine ⟨fun hy => absurd hy h, fun _ => ?_⟩
    have hm : mainRun w a =
        MainResult.usageError ("argument --split: invalid choice: " ++ a.split) := by
      simp [mainRun, parseArgs, h]
    refine ⟨hm, by rw [hm]; rfl, ?_⟩
    rw [hm]
    show (2 : Nat) ≠ 0
    decide

/-- C4 witness: the validation theorem applied to the accepted value
"train" and the rejected value "dev". -/
theorem C4_split_choice_validation_witness :
    parseArgs (Args.mk "./data" "train" none 4) =
      Except.ok (Config.mk "./data" "train" none 4) ∧
    eventsOf (mainRun (World.mk none (fun _ => none) (fun _ => none)
      (fun _ => Except.error "offline") (fun _ => none))
      (Args.mk "./data" "dev" none 4)) = [] :=
  ⟨(C4_split_choice_validation (World.mk none (fun _ => none) (fun _ => none)
      (fun _ => Except.error "offline") (fun _ => none))
      (Args.mk "./data" "train" none 4)).1 (by decide),
   ((C4_split_choice_validation _ (Args.mk "./data" "dev" none 4)).2 (by decide)).2.1⟩

/-- C7: the --num-proc option never reaches the fetch call: two CLI
invocations differing only in that option behave identically, the built
request always carries worker count 1, and so does every fetch call a run
performs. -/
theorem C7_num_proc_not_forwarded (w : World) (a : Args) (n₁ n₂ : Int) :
    mainRun w (Args.mk a.output_dir a.split a.cache_dir n₁) =
      mainRun w (Args.mk a.output_dir a.split a.cache_dir n₂) ∧
    (∀ cfg : Config, (fetchRequest cfg).num_proc = 1) ∧
    (∀ cfg : Config, ∀ r ∈ fetchCalls (download_AudioMNIST w cfg).1, r.num_proc = 1) := by
  refine ⟨?_, ?_, ?_⟩
  · by_cases h : a.split ∈ splitChoices <;> simp [mainRun, parseArgs, h]
    constructor <;> rfl
  · intro cfg
    by_cases h : cfg.split = "all" <;> simp [fetchRequest, h]
  · intro cfg r hr
    rw [fetchCalls_download_sub w cfg r hr]
    by_cases h : cfg.split = "all" <;> simp [fetchRequest, h]

/-- C7 witness: the independence theorem applied at concrete worker counts
4 and 99, and the forced worker count of the default-configuration
request. -/
theorem C7_num_proc_not_forwarded_witness :
    mainRun (World.mk none (fun _ => none) (fun _ => none)
        (fun _ => Except.error "offline") (fun _ => none))
        (Args.mk "./data" "all" none 4) =
      mainRun (World.mk none (fun _ => none) (fun _ => none)
        (fun _ => Except.error "offline") (fun _ => none))
        (Args.mk "./data" "all" none 99) ∧
    (fetchRequest downloadDefaults).num_proc = 1 :=
  ⟨(C7_num_proc_not_forwarded (World.mk none (fun _ => none) (fun _ => none)
      (fun _ => Except.error "offline") (fun _ => none))
      (Args.mk "./data" "all" none 0) 4 99).1,
   (C7_num_proc_not_forwarded (World.mk none (fun _ => none) (fun _ => none)
      (fun _ => Except.error "offline") (fun _ => none))
      (Args.mk "./data" "all" none 0) 4 99).2.1 downloadDefaults⟩

/-- C10: download_AudioMNIST called without an explicit split argument
defaults to split "train" and therefore requests exactly the train split
(a single collection), while the CLI default for --split is "all", which
requests every split; the two public entry points have different default
split behaviour. -/
theorem C10_default_split_mismatch :
    downloadDefaults.split = "train" ∧
    cliDefaults.split = "all" ∧
    downloadDefaults.split ≠ cliDefaults.split ∧
    (fetchRequest downloadDefaults).split = some "train" ∧
    (fetchRequest (Config.mk cliDefaults.output_dir cliDefaults.split
      cliDefaults.cache_dir cliDefaults.num_proc)).split = none ∧
    parseArgs cliDefaults = Except.ok (Config.mk "./data" "all" none 4) := by
  refine ⟨rfl, rfl, by decide, by decide, by decide, rfl⟩

/-- C2: when HUGGINGFACE_TOKEN is unset no login call is made; when it is
set to a non-empty string exactly one login call is made, with exactly that
value, and it happens before any fetch call of the run. -/
theorem C2_token_login (w : World) (cfg : Config) (h : reachesTry w cfg) :
    (w.hfToken = none → loginCalls (download_AudioMNIST w cfg).1 = []) ∧
    (∀ t, w.hfToken = some t → t ≠ "" →
      loginCalls (download_AudioMNIST w cfg).1 = [t] ∧
      ∀ r, precedesIn (Event.login t) (Event.fetch r)
        (download_AudioMNIST w cfg).1) := by
  have hdl := download_eq_of_reaches w cfg h
  have htr : (download_AudioMNIST w cfg).1 =
      prepEvents cfg ++ (cacheDirPhase w cfg).1 ++ (tryBody w cfg).1 ++
        errTail (tryBody w cfg).2 := by rw [hdl]
  obtain ⟨rest, hrest, hrl⟩ := tryBody_fst_decomp w cfg
  constructor
  · intro hf
    rw [htr, hrest, loginPhase_fst_of_none w hf]
    simp only [loginCalls_append, loginCalls_prepEvents, loginCalls_cacheDirPhase,
      loginCalls_errTail, loginCalls_nil, hrl, List.nil_append, List.append_nil]
  · intro t hf ht
    have hlp1 := loginPhase_fst_of_some w t hf ht
    constructor
    · rw [htr, hrest, hlp1]
      simp only [loginCalls_append, loginCalls_prepEvents, loginCalls_cacheDirPhase,
        loginCalls_errTail, loginCalls_login_one, hrl, List.nil_append, List.append_nil]
    · intro r
      rw [htr, hrest, hlp1]
      simp only [List.append_assoc, List.singleton_append]
      apply precedesIn_append_right _ _ _ _
        (fetch_not_mem_of_calls_nil _ (fetchCalls_prepEvents cfg) r)
      apply precedesIn_append_right _ _ _ _
        (fetch_not_mem_of_calls_nil _ (fetchCalls_cacheDirPhase w cfg) r)
      exact precedesIn_cons_self _ _ _ (by simp)

/-- C2 witness: the authentication theorem applied at a world with the
variable unset and at a world with the token "tok". -/
theorem C2_token_login_witness :
    loginCalls (download_AudioMNIST (World.mk none (fun _ => none) (fun _ => none)
      (fun _ => Except.error "offline") (fun _ => none)) downloadDefaults).1 = [] ∧
    loginCalls (download_AudioMNIST (World.mk (some "tok") (fun _ => none) (fun _ => none)
      (fun _ => Except.error "offline") (fun _ => none)) downloadDefaults).1 = ["tok"] :=
  ⟨(C2_token_login _ downloadDefaults ⟨rfl, fun _ hc => Option.noConfusion hc⟩).1 rfl,
   ((C2_token_login _ downloadDefaults ⟨rfl, fun _ hc => Option.noConfusion hc⟩).2
     "tok" rfl (by decide)).1⟩

/-- C3: any exception raised inside the try block (authentication, fetch,
reporting or save) is echoed with its message, followed by the fixed
four-step remediation guide, then re-raised unchanged, so a CLI run whose
arguments parsed terminates with exit status 1; no such exception is
suppressed. -/
theorem C3_exception_reraised (w : World) (cfg : Config) (h : reachesTry w cfg)
    (msg : String) (hexc : (tryBody w cfg).2 = some msg) :
    (download_AudioMNIST w cfg).2 = some msg ∧
    (∃ pre, (download_AudioMNIST w cfg).1 =
      pre ++ Event.printLine ("\nError downloading dataset: " ++ msg) ::
        remediationGuide.map Event.printLine) ∧
    (∀ a, parseArgs a = Except.ok cfg → exitCode (mainRun w a) = 1) := by
  have hdl := download_eq_of_reaches w cfg h
  have htr : (download_AudioMNIST w cfg).1 =
      prepEvents cfg ++ (cacheDirPhase w cfg).1 ++ (tryBody w cfg).1 ++
        errTail (tryBody w cfg).2 := by rw [hdl]
  have hsnd : (download_AudioMNIST w cfg).2 = (tryBody w cfg).2 := by rw [hdl]
  refine ⟨by rw [hsnd, hexc],
    ⟨prepEvents cfg ++ (cacheDirPhase w cfg).1 ++ (tryBody w cfg).1, ?_⟩, ?_⟩
  · rw [htr, hexc]
    simp [errTail, errorEvents, errorReport]
  · intro a hpa
    rcases hdd : download_AudioMNIST w cfg with ⟨tr, e⟩
    have he : e = some msg := by
      rw [hdd] at hsnd
      exact hsnd.trans hexc
    have hm : mainRun w a = MainResult.ran tr e := by
      simp [mainRun, hpa, hdd]
    rw [hm, he]
    rfl

/-- C3 witness: the error-boundary theorem applied at a world whose fetch
collaborator raises an exception with message "boom". -/
theorem C3_exception_reraised_witness :
    (download_AudioMNIST (World.mk none (fun _ => none) (fun _ => none)
      (fun _ => Except.error "boom") (fun _ => none)) downloadDefaults).2 =
      some "boom" :=
  (C3_exception_reraised (World.mk none (fun _ => none) (fun _ => none)
    (fun _ => Except.error "boom") (fun _ => none)) downloadDefaults
    ⟨rfl, fun _ hc => Option.noConfusion hc⟩ "boom" rfl).1

/-- C5: a mapping fetch result is reported with one count line per split
in the mapping and (for the specification's two-split stub of sizes 10 and
20) no combined-total line; a single-collection result is reported with
exactly one total-count line carrying the collection's length; the report
lines appear inside the run's trace when the fetch succeeds. -/
theorem C5_report_lines (w : World) (cfg : Config) (h : reachesTry w cfg)
    (hl : (loginPhase w).2 = none) :
    (∀ splits, reportEvents (DatasetHandle.mapping splits) =
      splits.map (fun p =>
        Event.printLine ("  " ++ p.1 ++ ": " ++ toString p.2 ++ " samples"))) ∧
    (∀ n, reportEvents (DatasetHandle.single n) =
      [Event.printLine ("  Total samples: " ++ toString n)]) ∧
    (∀ ds, w.fetchRes (fetchRequest cfg) = Except.ok ds →
      ∃ p q, (download_AudioMNIST w cfg).1 = p ++ reportEvents ds ++ q) ∧
    (∀ n : Nat, Event.printLine ("  Total samples: " ++ toString n) ∉
      reportEvents (DatasetHandle.mapping [("train", 10), ("test", 20)])) ∧
    reportEvents (DatasetHandle.single 15) =
      [Event.printLine "  Total samples: 15"] := by
  have hdl := download_eq_of_reaches w cfg h
  have htr : (download_AudioMNIST w cfg).1 =
      prepEvents cfg ++ (cacheDirPhase w cfg).1 ++ (tryBody w cfg).1 ++
        errTail (tryBody w cfg).2 := by rw [hdl]
  refine ⟨fun splits => rfl, fun n => rfl, ?_, total_line_not_mem_stub, by decide⟩
  intro ds hds
  obtain ⟨q, hq⟩ := tryBody_fetch_ok_decomp w cfg ds hl hds
  refine ⟨prepEvents cfg ++ (cacheDirPhase w cfg).1 ++ (loginPhase w).1 ++
      preFetchEvents ++ [Event.fetch (fetchRequest cfg),
        Event.printLine "\nDataset downloaded successfully!"],
    [Event.printLine ("\nSaving dataset to " ++ cfg.output_dir ++ "...")] ++ q ++
      errTail (tryBody w cfg).2, ?_⟩
  rw [htr, hq]
  simp

/-- C5 witness: the reporting theorem applied at a world whose fetch
returns a single collection of 15 samples. -/
theorem C5_report_lines_witness :
    reportEvents (DatasetHandle.single 15) =
      [Event.printLine "  Total samples: 15"] :=
  (C5_report_lines (World.mk none (fun _ => none) (fun _ => none)
    (fun _ => Except.ok (DatasetHandle.single 15)) (fun _ => none)) downloadDefaults
    ⟨rfl, fun _ hc => Option.noConfusion hc⟩ rfl).2.2.2.2

/-- C6: the output_dir creation precedes every fetch call, and so does the
cache_dir creation when a truthy cache_dir is given; recursive directory
creation creates the directory with all its ancestors, preserves existing
directories, is total and idempotent; the configured directories exist
before the fetch, and after a successful run output_dir and
output_dir/AudioMNIST both exist even when output_dir did not exist
before the run. -/
theorem C6_directory_invariant (w : World) (cfg : Config) (h : reachesTry w cfg) :
    (∀ r, precedesIn (Event.mkdir cfg.output_dir) (Event.fetch r)
      (download_AudioMNIST w cfg).1) ∧
    (∀ c, cfg.cache_dir = some c → c ≠ "" →
      ∀ r, precedesIn (Event.mkdir c) (Event.fetch r)
        (download_AudioMNIST w cfg).1) ∧
    (∀ (fs : FS) (p : DirPath), p ≠ [] → p ∈ mkdirP fs p) ∧
    (∀ (fs : FS) (p q : DirPath), q ∈ fs → q ∈ mkdirP fs p) ∧
    (∀ (fs : FS) (p q : DirPath), q ∈ mkdirP (mkdirP fs p) p ↔ q ∈ mkdirP fs p) ∧
    (∀ (fs : FS) (out : DirPath) (cache : Option DirPath), out ≠ [] →
      out ∈ fsBeforeFetch fs out cache) ∧
    (∀ (fs : FS) (out c : DirPath), c ≠ [] → c ∈ fsBeforeFetch fs out (some c)) ∧
    (∀ (fs : FS) (out : DirPath) (cache : Option DirPath), out ≠ [] →
      out ∈ runFS fs out cache ∧ out ++ ["AudioMNIST"] ∈ runFS fs out cache) := by
  have hdl := download_eq_of_reaches w cfg h
  have htr : (download_AudioMNIST w cfg).1 =
      prepEvents cfg ++ (cacheDirPhase w cfg).1 ++ (tryBody w cfg).1 ++
        errTail (tryBody w cfg).2 := by rw [hdl]
  refine ⟨?_, ?_, fun fs p hp => self_mem_mkdirP fs p hp,
    fun fs p q hq => mem_mkdirP_of_mem fs p q hq,
    fun fs p q => mkdirP_idem_mem fs p q,
    fun fs out cache hout => output_mem_fsBeforeFetch fs out cache hout,
    fun fs out c hc => cache_mem_fsBeforeFetch fs out c hc,
    fun fs out cache hout =>
      ⟨output_mem_runFS fs out cache hout, dataset_dir_mem_runFS fs out cache⟩⟩
  · intro r
    rw [htr]
    simp only [prepEvents, List.cons_append, List.append_assoc]
    exact precedesIn_cons_self _ _ _ (by simp)
  · intro c hcd hcne r
    have hmc : w.mkdirExc c = none := h.2 c hcd hcne
    rw [htr, cacheDirPhase_fst_of_some w cfg c hcd hcne hmc]
    simp only [prepEvents, List.cons_append, List.append_assoc, List.nil_append,
      List.singleton_append]
    apply precedesIn_cons _ _ _ _ (by simp)
    apply precedesIn_append_right _ _ _ _
      (fetch_not_mem_of_calls_nil _ (fetchCalls_headerEvents cfg) r)
    exact precedesIn_cons_self _ _ _ (by simp)

/-- C6 witness: the invariant theorem applied at a concrete world and
configuration, an initially empty filesystem and the directory data. -/
theorem C6_directory_invariant_witness :
    ["data"] ∈ mkdirP [] ["data"] ∧
    ["data", "AudioMNIST"] ∈ runFS [] ["data"] none :=
  ⟨(C6_directory_invariant (World.mk none (fun _ => none) (fun _ => none)
      (fun _ => Except.error "offline") (fun _ => none)) downloadDefaults
      ⟨rfl, fun _ hc => Option.noConfusion hc⟩).2.2.1 [] ["data"] (by decide),
   ((C6_directory_invariant (World.mk none (fun _ => none) (fun _ => none)
      (fun _ => Except.error "offline") (fun _ => none)) downloadDefaults
      ⟨rfl, fun _ hc => Option.noConfusion hc⟩).2.2.2.2.2.2.2 [] ["data"] none
      (by decide)).2⟩

/-- C8 counterexample: with a world whose output_dir creation raises
"Permission denied", the run re-raises that exception while its whole
trace is the single mkdir event: neither the error echo for that message
nor the first remediation-guide line is printed, refuting the claim that
directory-creation failures reach the catch-all reporting boundary. -/
theorem C8_catchall_counterexample :
    download_AudioMNIST (World.mk none (fun _ => some "Permission denied")
        (fun _ => none) (fun _ => Except.ok (DatasetHandle.single 0))
        (fun _ => none)) downloadDefaults =
      ([Event.mkdir "./data"], some "Permission denied") ∧
    Event.printLine "\nError downloading dataset: Permission denied" ∉
      (download_AudioMNIST (World.mk none (fun _ => some "Permission denied")
        (fun _ => none) (fun _ => Except.ok (DatasetHandle.single 0))
        (fun _ => none)) downloadDefaults).1 ∧
    Event.printLine "\nIf authentication is required:" ∉
      (download_AudioMNIST (World.mk none (fun _ => some "Permission denied")
        (fun _ => none) (fun _ => Except.ok (DatasetHandle.single 0))
        (fun _ => none)) downloadDefaults).1 := by
  refine ⟨by decide, by decide, by decide⟩

/-- C8 amended: the catch-all boundary wraps authentication, fetch,
reporting and save; the two directory creations run before the try block,
so a directory-creation exception propagates unchanged with no error echo
and no remediation guide, while an exception raised inside the try block
is echoed together with the guide and then re-raised. -/
theorem C8_catchall_boundary (w : World) (cfg : Config) :
    (∀ msg, w.mkdirExc cfg.output_dir = some msg →
      download_AudioMNIST w cfg = ([Event.mkdir cfg.output_dir], some msg)) ∧
    (∀ c msg, w.mkdirExc cfg.output_dir = none → cfg.cache_dir = some c → c ≠ "" →
      w.mkdirExc c = some msg →
      download_AudioMNIST w cfg = (prepEvents cfg ++ [Event.mkdir c], some msg)) ∧
    (∀ msg, reachesTry w cfg → (tryBody w cfg).2 = some msg →
      (download_AudioMNIST w cfg).2 = some msg ∧
      ∃ pre, (download_AudioMNIST w cfg).1 = pre ++ errorEvents msg) := by
  refine ⟨?_, ?_, ?_⟩
  · intro msg hm
    simp [download_AudioMNIST, hm]
  · intro c msg hm hcd hc hmc
    simp [download_AudioMNIST, hm, cacheDirPhase, hcd, hc, hmc]
  · intro msg h hexc
    have hdl := download_eq_of_reaches w cfg h
    have htr : (download_AudioMNIST w cfg).1 =
        prepEvents cfg ++ (cacheDirPhase w cfg).1 ++ (tryBody w cfg).1 ++
          errTail (tryBody w cfg).2 := by rw [hdl]
    refine ⟨by rw [hdl]; exact hexc,
      ⟨prepEvents cfg ++ (cacheDirPhase w cfg).1 ++ (tryBody w cfg).1, ?_⟩⟩
    rw [htr, hexc]
    rfl

/-- C8 amended witness: the boundary theorem applied at the
permission-denied world (first part) and at a failing-fetch world (the
reported part). -/
theorem C8_catchall_boundary_witness :
    download_AudioMNIST (World.mk none (fun _ => some "Permission denied")
        (fun _ => none) (fun _ => Except.ok (DatasetHandle.single 0))
        (fun _ => none)) downloadDefaults =
      ([Event.mkdir "./data"], some "Permission denied") ∧
    (download_AudioMNIST (World.mk none (fun _ => none) (fun _ => none)
        (fun _ => Except.error "boom2") (fun _ => none)) downloadDefaults).2 =
      some "boom2" :=
  ⟨(C8_catchall_boundary (World.mk none (fun _ => some "Permission denied")
      (fun _ => none) (fun _ => Except.ok (DatasetHandle.single 0))
      (fun _ => none)) downloadDefaults).1 "Permission denied" rfl,
   ((C8_catchall_boundary (World.mk none (fun _ => none) (fun _ => none)
      (fun _ => Except.error "boom2") (fun _ => none)) downloadDefaults).2.2 "boom2"
      ⟨rfl, fun _ hc => Option.noConfusion hc⟩ rfl).1⟩

/-- C9: every successful run makes exactly one save call, to exactly the
path output_dir/AudioMNIST, and the completion banner printed afterwards
contains that save path and the reload snippet naming it. -/
theorem C9_save_path_banner (w : World) (cfg : Config)
    (hok : (download_AudioMNIST w cfg).2 = none) :
    saveCalls (download_AudioMNIST w cfg).1 = [savePath cfg] ∧
    savePath cfg = cfg.output_dir ++ "/AudioMNIST" ∧
    Event.printLine ("\nDataset saved to: " ++ savePath cfg) ∈
      (download_AudioMNIST w cfg).1 ∧
    Event.printLine ("  dataset = load_from_disk(\x27" ++ savePath cfg ++ "\x27)") ∈
      (download_AudioMNIST w cfg).1 := by
  rcases hm : w.mkdirExc cfg.output_dir with _ | msg
  · rcases hcp : cacheDirPhase w cfg with ⟨ctr, cexc⟩
    cases cexc with
    | some msg2 =>
      exfalso
      have h2 : (download_AudioMNIST w cfg).2 = some msg2 := by
        simp [download_AudioMNIST, hm, hcp]
      rw [hok] at h2
      exact Option.noConfusion h2
    | none =>
      rcases htb : tryBody w cfg with ⟨btr, bexc⟩
      cases bexc with
      | some msg2 =>
        exfalso
        have h2 : (download_AudioMNIST w cfg).2 = some msg2 := by
          simp [download_AudioMNIST, hm, hcp, htb]
        rw [hok] at h2
        exact Option.noConfusion h2
      | none =>
        have hdl1 : (download_AudioMNIST w cfg).1 = prepEvents cfg ++ ctr ++ btr := by
          simp [download_AudioMNIST, hm, hcp, htb]
        obtain ⟨ds, hds, hsv, hbtr⟩ := tryBody_success_decomp w cfg (by rw [htb])
        have hbtr2 : btr = (loginPhase w).1 ++ preFetchEvents ++
            [Event.fetch (fetchRequest cfg)] ++
            (Event.printLine "\nDataset downloaded successfully!" :: reportEvents ds ++
              [Event.printLine ("\nSaving dataset to " ++ cfg.output_dir ++ "...")]) ++
            [Event.save (savePath cfg)] ++ completionEvents cfg := by
          rw [htb] at hbtr
          exact hbtr
        have hctr : saveCalls ctr = [] := by
          have h0 := saveCalls_cacheDirPhase w cfg
          rw [hcp] at h0
          exact h0
        refine ⟨?_, ?_, ?_, ?_⟩
        · rw [hdl1, hbtr2]
          simp only [saveCalls_append, saveCalls_prepEvents, hctr, saveCalls_loginPhase,
            saveCalls_preFetchEvents, saveCalls_fetch_one, saveCalls_cons_printLine,
            saveCalls_reportEvents, saveCalls_save_one, saveCalls_completionEvents,
            saveCalls_nil, List.nil_append, List.append_nil]
        · rw [show savePath cfg = cfg.output_dir ++ "/" ++ "AudioMNIST" from rfl,
            String.append_assoc]
          rfl
        · rw [hdl1, hbtr2]
          simp [completionEvents]
        · rw [hdl1, hbtr2]
          simp [completionEvents]
  · exfalso
    have h2 : (download_AudioMNIST w cfg).2 = some msg := by
      simp [download_AudioMNIST, hm]
    rw [hok] at h2
    exact Option.noConfusion h2

/-- C9 witness: the persistence theorem applied at an all-success world
with the default configuration. -/
theorem C9_save_path_banner_witness :
    saveCalls (download_AudioMNIST (World.mk none (fun _ => none) (fun _ => none)
      (fun _ => Except.ok (DatasetHandle.single 15)) (fun _ => none))
      downloadDefaults).1 = [savePath downloadDefaults] :=
  (C9_save_path_banner (World.mk none (fun _ => none) (fun _ => none)
    (fun _ => Except.ok (DatasetHandle.single 15)) (fun _ => none))
    downloadDefaults (by decide)).1
